import Mathlib

/-
Verification of the BPM playlist generator core against its specification.

The Python source is shallowly embedded as follows:
  - float arithmetic is modelled by exact arithmetic (ℚ for the binner,
    whose comparisons are exact, and ℝ for the Markov-model pipeline);
  - the IEEE NaN sentinel produced by pandas mean on an empty selection is
    modelled by an Option layer in which `none` plays the role of NaN and
    every arithmetic operation propagates `none`, and the numpy elementwise
    comparison `NaN == 0`, which is false, is modelled accordingly;
  - pandas data frames become lists of `Song` records;
  - randomness (DataFrame.sample, np.random.choice) is injected as an
    explicit stream of naturals selecting an index into the candidate pool;
  - a Python exception (the KeyError from a missing phase name) becomes an
    `Option` result, with `none` for the raised error;
  - np.linalg.solve succeeds exactly on invertible systems and its
    LinAlgError fallback to np.linalg.lstsq is modelled by a branch on
    invertibility of the matrix, the fallback being a least-squares
    solution of the system.
-/

namespace BPMPlaylist

/-! ## Binner (bpm_binner.py) -/

/-- The ordered BPM ranges of bpm_binner.py: a list of
(state name, lower bound, upper bound), half-open intervals, in the
insertion order of the Python dict. -/
def BINS : List (String × ℚ × ℚ) :=
  [("warmup", 80, 110),
   ("steady_state", 110, 140),
   ("push_pace", 140, 170),
   ("sprint", 170, 1000)]

/-- Whether a BPM value falls in the half-open interval of one bin,
mirroring the test `lower <= bpm < upper`. -/
def binMatches (bpm : ℚ) (b : String × ℚ × ℚ) : Bool :=
  decide (b.2.1 ≤ bpm ∧ bpm < b.2.2)

/-- categorize_bpm of bpm_binner.py: return the first state whose
half-open range contains the BPM, and `none` (Python None) otherwise. -/
def categorize_bpm (bpm : ℚ) : Option String :=
  (BINS.find? (binMatches bpm)).map Prod.fst

/-! ## Songs and song selection (bpm_binner.py, playlist_generator.py) -/

/-- One row of the binned songs DataFrame: its unique identifier, its BPM
and its assigned state (`none` for the NaN of an unclassified song). -/
structure Song where
  id : String
  bpm : ℝ
  state : Option String

/-- The canonical state ordering STATES of markov_model.py, as the map
from a state index to its name. -/
def STATES : Fin 4 → String :=
  !["warmup", "steady_state", "push_pace", "sprint"]

/-- The pool `unused = songs_df[~songs_df["id"].isin(used_ids)]` of
choose_song_from_bin: the catalog rows whose id is not yet used. -/
def unused_songs (songs : List Song) (used : List String) : List Song :=
  songs.filter (fun s => decide (s.id ∉ used))

/-- The pool `candidates = unused[unused["state"] == state]` of
choose_song_from_bin: the unused rows classified in the requested state. -/
def state_candidates (songs : List Song) (state : String)
    (used : List String) : List Song :=
  (unused_songs songs used).filter (fun s => decide (s.state = some state))

/-- choose_song_from_bin of bpm_binner.py.  The DataFrame is the list
`songs`, the used_ids set is the list `used`, and the uniform draw of
DataFrame.sample is injected as the natural `r`, reduced modulo the size
of the candidate pool.  First an unused song of the requested state is
drawn; failing that, any unused song; failing that, `none`. -/
def choose_song_from_bin (songs : List Song) (state : String)
    (used : List String) (r : ℕ) : Option Song :=
  if hc : (state_candidates songs state used).length ≠ 0 then
    some ((state_candidates songs state used).get
      ⟨r % (state_candidates songs state used).length,
        Nat.mod_lt r (Nat.pos_of_ne_zero hc)⟩)
  else if hu : (unused_songs songs used).length ≠ 0 then
    some ((unused_songs songs used).get
      ⟨r % (unused_songs songs used).length,
        Nat.mod_lt r (Nat.pos_of_ne_zero hu)⟩)
  else
    none

/-- The song-selection loop of generate_playlist (playlist_generator.py):
walk the simulated state path (the tail state_path[1:] of the simulated
chain), keep a shared used-id set, append each selected song, and skip a
slot whenever choose_song_from_bin returns nothing.  The random stream
`rs` supplies the sample draw of step `k`. -/
def select_songs (songs : List Song) (path : List (Fin 4))
    (used : List String) (k : ℕ) (rs : ℕ → ℕ) : List Song :=
  match path with
  | [] => []
  | st :: rest =>
    match choose_song_from_bin songs (STATES st) used (rs k) with
    | some song => song :: select_songs songs rest (song.id :: used) (k + 1) rs
    | none => select_songs songs rest used (k + 1) rs

/-- generate_playlist of playlist_generator.py, restricted to its
song-selection phase: the simulated state path (already one state per
slot, the initial state dropped) is passed in explicitly, since the
simulation draw is random.  The used-id set starts empty. -/
def generate_playlist_from_path (songs : List Song) (path : List (Fin 4))
    (rs : ℕ → ℕ) : List Song :=
  select_songs songs path [] 0 rs

/-- The total number of slots of a workout plan: the sum of the per-phase
slot counts, as in `sum(length for _, length in plan)`. -/
def total_slots (plan : List (String × ℕ)) : ℕ :=
  (plan.map Prod.snd).sum

/-! ## Transition model builder (markov_model.py), exact real arithmetic -/

/-- PHASE_WEIGHTS of markov_model.py: the per-phase weight vectors, in the
insertion order of the Python dict. -/
noncomputable def PHASE_WEIGHTS : List (String × (Fin 4 → ℝ)) :=
  [("warmup", ![2, 1.2, 0.8, 0.5]),
   ("steady_state", ![1, 2, 1, 0.8]),
   ("push_pace", ![0.7, 1, 2, 1]),
   ("sprint", ![0.5, 0.8, 1, 2.5])]

/-- The sum of row `i`, `mat.sum(axis=1)`. -/
def row_sum {n : ℕ} (M : Matrix (Fin n) (Fin n) ℝ) (i : Fin n) : ℝ :=
  ∑ j, M i j

/-- row_normalize of markov_model.py: each row is divided by its sum,
except that a row sum equal to zero is first replaced by 1
(`row_sums[row_sums == 0] = 1.0`), so such a row is divided by 1 and left
unchanged. -/
noncomputable def row_normalize {n : ℕ} (M : Matrix (Fin n) (Fin n) ℝ) :
    Matrix (Fin n) (Fin n) ℝ :=
  Matrix.of fun i j => M i j / (if row_sum M i = 0 then 1 else row_sum M i)

/-- build_similarity_matrix of markov_model.py: the Laplace kernel
`exp(-|centers i - centers j| / tau)` on real (non-sentinel) centers. -/
noncomputable def build_similarity_matrix {n : ℕ} (centers : Fin n → ℝ)
    (tau : ℝ) : Matrix (Fin n) (Fin n) ℝ :=
  Matrix.of fun i j => Real.exp (-|centers i - centers j| / tau)

/-- build_base_transition of markov_model.py. -/
noncomputable def build_base_transition {n : ℕ} (centers : Fin n → ℝ)
    (tau : ℝ) : Matrix (Fin n) (Fin n) ℝ :=
  row_normalize (build_similarity_matrix centers tau)

/-- build_phase_matrix of markov_model.py: multiply column `j` of the base
matrix by `weights j` (numpy broadcasting of `P_base * np.array(weights)`)
and row-normalize again. -/
noncomputable def build_phase_matrix (P : Matrix (Fin 4) (Fin 4) ℝ)
    (w : Fin 4 → ℝ) : Matrix (Fin 4) (Fin 4) ℝ :=
  row_normalize (Matrix.of fun i j => P i j * w j)

/-- Row-stochasticity as the spec states it: every row sums to 1 and every
entry lies in [0, 1]. -/
def IsRowStochastic {n : ℕ} (M : Matrix (Fin n) (Fin n) ℝ) : Prop :=
  (∀ i, ∑ j, M i j = 1) ∧ ∀ i j, 0 ≤ M i j ∧ M i j ≤ 1

/-! ## The NaN-propagating float layer

numpy float arithmetic on data containing NaN is modelled on `Option ℝ`:
`none` is NaN, every arithmetic operation with a `none` operand yields
`none`, and the comparison `NaN == 0` is false, exactly as in IEEE
arithmetic.  This layer is what the markov_model.py pipeline actually
computes when compute_bin_centers returns a NaN center. -/

/-- NaN-propagating addition. -/
def nadd (a b : Option ℝ) : Option ℝ :=
  match a, b with
  | some x, some y => some (x + y)
  | _, _ => none

/-- NaN-propagating division. -/
noncomputable def ndiv (a b : Option ℝ) : Option ℝ :=
  match a, b with
  | some x, some y => some (x / y)
  | _, _ => none

/-- One similarity entry `exp(-|x - y| / tau)`: any operand that is NaN
poisons the result, as numpy subtraction, abs and exp all propagate NaN. -/
noncomputable def sim_entry_nan (tau : ℝ) (a b : Option ℝ) : Option ℝ :=
  match a, b with
  | some x, some y => some (Real.exp (-|x - y| / tau))
  | _, _ => none

/-- build_similarity_matrix on possibly-NaN centers. -/
noncomputable def build_similarity_nan (c : Fin 4 → Option ℝ) (tau : ℝ) :
    Fin 4 → Fin 4 → Option ℝ :=
  fun i j => sim_entry_nan tau (c i) (c j)

/-- The sum of a possibly-NaN 4-vector: any NaN entry makes the sum NaN. -/
def vec_sum_nan (v : Fin 4 → Option ℝ) : Option ℝ :=
  nadd (nadd (nadd (v 0) (v 1)) (v 2)) (v 3)

/-- `mat.sum(axis=1)` over possibly-NaN entries: a row containing NaN sums
to NaN. -/
def row_sum_nan (M : Fin 4 → Fin 4 → Option ℝ) (i : Fin 4) : Option ℝ :=
  vec_sum_nan (M i)

/-- The guard `row_sums[row_sums == 0] = 1.0` of row_normalize: an exact
zero sum is replaced by 1, but `NaN == 0` is false, so a NaN sum is kept. -/
noncomputable def guard_zero_nan (s : Option ℝ) : Option ℝ :=
  match s with
  | some x => some (if x = 0 then 1 else x)
  | none => none

/-- row_normalize over possibly-NaN entries. -/
noncomputable def row_normalize_nan (M : Fin 4 → Fin 4 → Option ℝ) :
    Fin 4 → Fin 4 → Option ℝ :=
  fun i j => ndiv (M i j) (guard_zero_nan (row_sum_nan M i))

/-- build_base_transition over possibly-NaN centers. -/
noncomputable def build_base_transition_nan (c : Fin 4 → Option ℝ)
    (tau : ℝ) : Fin 4 → Fin 4 → Option ℝ :=
  row_normalize_nan (build_similarity_nan c tau)

/-- compute_bin_centers of markov_model.py: the mean BPM of the classified
songs of each state; the pandas mean of an empty selection is NaN, the
sentinel, modelled as `none`. -/
noncomputable def compute_bin_centers (songs : List Song) :
    Fin 4 → Option ℝ :=
  fun k =>
    let xs := (songs.filter (fun s => decide (s.state = some (STATES k)))).map Song.bpm
    if xs.length = 0 then none else some (xs.sum / xs.length)

/-- A concrete catalog with no warmup song: two songs in each of the three
higher-intensity states. -/
noncomputable def no_warmup_catalog : List Song :=
  [Song.mk "s1" 120 (some "steady_state"), Song.mk "s2" 130 (some "steady_state"),
   Song.mk "p1" 150 (some "push_pace"), Song.mk "p2" 160 (some "push_pace"),
   Song.mk "x1" 180 (some "sprint"), Song.mk "x2" 190 (some "sprint")]

/-! ## Matrix construction of generate_playlist (playlist_generator.py) -/

/-- The dict lookup `PHASE_WEIGHTS[phase]` of generate_playlist; `none`
models the KeyError raised for a phase name absent from the table. -/
noncomputable def lookup_phase_weights (phase : String) : Option (Fin 4 → ℝ) :=
  (PHASE_WEIGHTS.find? (fun p => p.1 == phase)).map Prod.snd

/-- The matrix-sequence construction loop of generate_playlist: for each
(phase, length) pair of the plan, look up the phase weights (a missing
name raises, modelled as `none`) and repeat that phase matrix `length`
times.  Note there is no validation of the plan or of tau here. -/
noncomputable def build_P_seq (P : Matrix (Fin 4) (Fin 4) ℝ) :
    List (String × ℕ) → Option (List (Matrix (Fin 4) (Fin 4) ℝ))
  | [] => some []
  | (phase, len) :: rest =>
    match lookup_phase_weights phase, build_P_seq P rest with
    | some w, some ms => some (List.replicate len (build_phase_matrix P w) ++ ms)
    | _, _ => none

/-- The matrix-construction phase of generate_playlist: the base matrix
from the centers and temperature, then the per-slot matrix sequence. -/
noncomputable def generate_matrices (c : Fin 4 → ℝ) (plan : List (String × ℕ))
    (tau : ℝ) : Option (List (Matrix (Fin 4) (Fin 4) ℝ)) :=
  build_P_seq (build_base_transition c tau) plan

/-! ## The full generate_playlist pipeline (playlist_generator.py)

The end-to-end call, over the NaN-propagating float layer, so that the
error path of a catalog with an empty state is represented: NaN centers
flow into the matrices, and np.random.choice in simulate_chain validates
its probability vector and raises on NaN. -/

/-- build_phase_matrix over possibly-NaN entries: numpy multiplication by
the (finite) weight propagates NaN, then row_normalize. -/
noncomputable def build_phase_matrix_nan (P : Fin 4 → Fin 4 → Option ℝ)
    (w : Fin 4 → ℝ) : Fin 4 → Fin 4 → Option ℝ :=
  row_normalize_nan (fun i j => (P i j).map (fun x => x * w j))

/-- The matrix-sequence loop of generate_playlist over the NaN layer:
the PHASE_WEIGHTS lookup can raise (KeyError, modelled as `none`), and
each phase matrix is repeated once per slot. -/
noncomputable def build_P_seq_nan (P : Fin 4 → Fin 4 → Option ℝ) :
    List (String × ℕ) → Option (List (Fin 4 → Fin 4 → Option ℝ))
  | [] => some []
  | (phase, len) :: rest =>
    match lookup_phase_weights phase, build_P_seq_nan P rest with
    | some w, some ms => some (List.replicate len (build_phase_matrix_nan P w) ++ ms)
    | _, _ => none

/-- `np.random.choice(len(P), p=P[state])` of simulate_chain: numpy first
validates the probability vector — a vector containing NaN, whose sum is
NaN, fails the sum-equals-1 validation and raises ValueError (modelled as
`none`); in exact arithmetic the pipeline rows otherwise sum to exactly 1.
The drawn index is the injected random value `r`. -/
noncomputable def np_random_choice_nan (p : Fin 4 → Option ℝ) (r : Fin 4) :
    Option (Fin 4) :=
  @ite _ (vec_sum_nan p = some 1) (Classical.propDecidable _) (some r) none

/-- simulate_chain of markov_model.py over the NaN layer: walk the matrix
sequence from the start state, one np.random.choice draw per slot, the
draw stream injected; a raised ValueError aborts the whole call. The
returned path has the start state first, as in the source. -/
noncomputable def simulate_chain_nan (draw : ℕ → Fin 4) :
    List (Fin 4 → Fin 4 → Option ℝ) → Fin 4 → ℕ → Option (List (Fin 4))
  | [], x, _ => some [x]
  | P :: rest, x, k =>
    match np_random_choice_nan (P x) (draw k) with
    | none => none
    | some y => (simulate_chain_nan draw rest y (k + 1)).map (fun p => x :: p)

/-- generate_playlist of playlist_generator.py, end to end: bin centers
from the catalog, base transition matrix, per-slot phase matrices,
simulated state path from state 0, then the song-selection loop over
state_path[1:]. `none` is a raised exception (KeyError from the weight
lookup, or ValueError from np.random.choice on a NaN-poisoned matrix);
the selection phase itself never raises. -/
noncomputable def generate_playlist (songs : List Song)
    (plan : List (String × ℕ)) (tau : ℝ) (draw : ℕ → Fin 4)
    (rs : ℕ → ℕ) : Option (List Song) :=
  match build_P_seq_nan (build_base_transition_nan (compute_bin_centers songs) tau) plan with
  | none => none
  | some Pseq =>
    match simulate_chain_nan draw Pseq 0 0 with
    | none => none
    | some path => some (select_songs songs path.tail [] 0 rs)

/-- A concrete catalog of three songs leaving the sprint state empty. -/
noncomputable def three_song_catalog : List Song :=
  [Song.mk "w1" 95 (some "warmup"), Song.mk "s1" 125 (some "steady_state"),
   Song.mk "p1" 155 (some "push_pace")]

/-! ## Expected hitting times (evaluate.py)

np.linalg.solve succeeds exactly when the system matrix is invertible and
raises LinAlgError otherwise; the except-branch then calls np.linalg.lstsq,
which returns a least-squares solution of the system.  Exact arithmetic
replaces the floating-point solver. -/

/-- The squared-residual objective of the linear system A x = b. -/
noncomputable def residual_sq {m k : Type*} [Fintype m] [Fintype k]
    (A : Matrix m k ℝ) (b : m → ℝ) (x : k → ℝ) : ℝ :=
  ∑ i, (A.mulVec x i - b i) ^ 2

/-- x is a least-squares solution of A x = b: no other vector achieves a
smaller squared residual. -/
def IsLeastSquaresSol {m k : Type*} [Fintype m] [Fintype k]
    (A : Matrix m k ℝ) (b : m → ℝ) (x : k → ℝ) : Prop :=
  ∀ y, residual_sq A b x ≤ residual_sq A b y

/-- np.linalg.lstsq: a least-squares solution of A x = b (one always
exists; the theorems below prove it). -/
noncomputable def lstsq {m k : Type*} [Fintype m] [Fintype k]
    (A : Matrix m k ℝ) (b : m → ℝ) : k → ℝ :=
  @dite _ (∃ x, IsLeastSquaresSol A b x) (Classical.propDecidable _)
    (fun h => h.choose) (fun _ _ => 0)

/-- The index set of the non-target states, the `non_target` list of
compute_expected_hitting_times. -/
abbrev non_target (n : ℕ) (t : Fin n) : Type :=
  {i : Fin n // i ≠ t}

/-- The system matrix A = I - P_sub of compute_expected_hitting_times,
P_sub being the submatrix of P on the non-target rows and columns. -/
def hitting_A {n : ℕ} (P : Matrix (Fin n) (Fin n) ℝ) (t : Fin n) :
    Matrix (non_target n t) (non_target n t) ℝ :=
  1 - P.submatrix Subtype.val Subtype.val

/-- The solution of the restricted system (I - P_sub) h_sub = 1:
np.linalg.solve when the matrix is invertible, and the lstsq fallback of
the except-branch otherwise. -/
noncomputable def hitting_h_sub {n : ℕ} (P : Matrix (Fin n) (Fin n) ℝ)
    (t : Fin n) : non_target n t → ℝ :=
  @ite _ (IsUnit (hitting_A P t).det) (Classical.propDecidable _)
    ((hitting_A P t)⁻¹.mulVec fun _ => 1)
    (lstsq (hitting_A P t) fun _ => 1)

/-- compute_expected_hitting_times of evaluate.py: reassemble the full
vector with h[target] = 0 and the restricted solution elsewhere. -/
noncomputable def compute_expected_hitting_times {n : ℕ}
    (P : Matrix (Fin n) (Fin n) ℝ) (t : Fin n) : Fin n → ℝ :=
  fun i => if h : i = t then 0 else hitting_h_sub P t ⟨i, h⟩

end BPMPlaylist

namespace BPMPlaylist

open scoped Matrix

/-! ## Theorems for the binner claims -/

/-- Claim C6: under the default ranges, classification is deterministic with
inclusive-lower and exclusive-upper boundaries: 110 BPM is steady_state,
109.999 BPM (the rational 109999/1000) is warmup, 170 BPM is sprint and
79 BPM is Unclassified (None). -/
theorem categorize_bpm_boundaries :
    categorize_bpm 110 = some "steady_state" ∧
    categorize_bpm (109999/1000) = some "warmup" ∧
    categorize_bpm 170 = some "sprint" ∧
    categorize_bpm 79 = none := by
  refine ⟨?_, ?_, ?_, ?_⟩ <;>
    norm_num [categorize_bpm, BINS, binMatches, List.find?]

/-- Unfolding of the Boolean bin membership test. -/
theorem binMatches_iff (q : ℚ) (b : String × ℚ × ℚ) :
    binMatches q b = true ↔ b.2.1 ≤ q ∧ q < b.2.2 := by
  simp [binMatches]

/-- Counterexample to claim C7 as stated: the configured ranges do not
cover [80, ∞) — the sprint range ends at 1000, so the BPM 1000 is at
least 80 yet classifies as Unclassified. -/
theorem bpm_1000_unclassified :
    categorize_bpm 1000 = none ∧ (80 : ℚ) ≤ 1000 := by
  refine ⟨?_, by norm_num⟩
  norm_num [categorize_bpm, BINS, binMatches, List.find?]

/-- Claim C7, amended: the configured ranges fully and disjointly cover
[80, 1000): every BPM with 80 ≤ bpm < 1000 matches exactly one range and
classifies to some state, while a BPM below 80 or at least 1000 matches no
range and yields Unclassified. -/
theorem categorize_bpm_coverage :
    ∀ q : ℚ,
      ((80 ≤ q ∧ q < 1000) →
        BINS.countP (binMatches q) = 1 ∧ (categorize_bpm q).isSome = true) ∧
      ((q < 80 ∨ 1000 ≤ q) → categorize_bpm q = none) := by
  intro q
  constructor
  · rintro ⟨h80, h1000⟩
    rcases lt_or_le q 110 with h110 | h110
    · have c1 : binMatches q ("warmup", 80, 110) = true := by
        rw [binMatches_iff]; exact ⟨h80, h110⟩
      have c2 : binMatches q ("steady_state", 110, 140) = false := by
        simp only [binMatches, decide_eq_false_iff_not]; rintro ⟨h, -⟩; linarith
      have c3 : binMatches q ("push_pace", 140, 170) = false := by
        simp only [binMatches, decide_eq_false_iff_not]; rintro ⟨h, -⟩; linarith
      have c4 : binMatches q ("sprint", 170, 1000) = false := by
        simp only [binMatches, decide_eq_false_iff_not]; rintro ⟨h, -⟩; linarith
      exact ⟨by simp [BINS, List.countP_cons, c1, c2, c3, c4],
        by simp [categorize_bpm, BINS, List.find?, c1]⟩
    · rcases lt_or_le q 140 with h140 | h140
      · have c1 : binMatches q ("warmup", 80, 110) = false := by
          simp only [binMatches, decide_eq_false_iff_not]; rintro ⟨-, h⟩; linarith
        have c2 : binMatches q ("steady_state", 110, 140) = true := by
          rw [binMatches_iff]; exact ⟨h110, h140⟩
        have c3 : binMatches q ("push_pace", 140, 170) = false := by
          simp only [binMatches, decide_eq_false_iff_not]; rintro ⟨h, -⟩; linarith
        have c4 : binMatches q ("sprint", 170, 1000) = false := by
          simp only [binMatches, decide_eq_false_iff_not]; rintro ⟨h, -⟩; linarith
        exact ⟨by simp [BINS, List.countP_cons, c1, c2, c3, c4],
          by simp [categorize_bpm, BINS, List.find?, c1, c2]⟩
      · rcases lt_or_le q 170 with h170 | h170
        · have c1 : binMatches q ("warmup", 80, 110) = false := by
            simp only [binMatches, decide_eq_false_iff_not]; rintro ⟨-, h⟩; linarith
          have c2 : binMatches q ("steady_state", 110, 140) = false := by
            simp only [binMatches, decide_eq_false_iff_not]; rintro ⟨-, h⟩; linarith
          have c3 : binMatches q ("push_pace", 140, 170) = true := by
            rw [binMatches_iff]; exact ⟨h140, h170⟩
          have c4 : binMatches q ("sprint", 170, 1000) = false := by
            simp only [binMatches, decide_eq_false_iff_not]; rintro ⟨h, -⟩; linarith
          exact ⟨by simp [BINS, List.countP_cons, c1, c2, c3, c4],
            by simp [categorize_bpm, BINS, List.find?, c1, c2, c3]⟩
        · have c1 : binMatches q ("warmup", 80, 110) = false := by
            simp only [binMatches, decide_eq_false_iff_not]; rintro ⟨-, h⟩; linarith
          have c2 : binMatches q ("steady_state", 110, 140) = false := by
            simp only [binMatches, decide_eq_false_iff_not]; rintro ⟨-, h⟩; linarith
          have c3 : binMatches q ("push_pace", 140, 170) = false := by
            simp only [binMatches, decide_eq_false_iff_not]; rintro ⟨-, h⟩; linarith
          have c4 : binMatches q ("sprint", 170, 1000) = true := by
            rw [binMatches_iff]; exact ⟨h170, h1000⟩
          exact ⟨by simp [BINS, List.countP_cons, c1, c2, c3, c4],
            by simp [categorize_bpm, BINS, List.find?, c1, c2, c3, c4]⟩
  · intro hout
    have c1 : binMatches q ("warmup", 80, 110) = false := by
      simp only [binMatches, decide_eq_false_iff_not]; rintro ⟨hlo, hhi⟩
      rcases hout with h | h <;> linarith
    have c2 : binMatches q ("steady_state", 110, 140) = false := by
      simp only [binMatches, decide_eq_false_iff_not]; rintro ⟨hlo, hhi⟩
      rcases hout with h | h <;> linarith
    have c3 : binMatches q ("push_pace", 140, 170) = false := by
      simp only [binMatches, decide_eq_false_iff_not]; rintro ⟨hlo, hhi⟩
      rcases hout with h | h <;> linarith
    have c4 : binMatches q ("sprint", 170, 1000) = false := by
      simp only [binMatches, decide_eq_false_iff_not]; rintro ⟨hlo, hhi⟩
      rcases hout with h | h <;> linarith
    simp [categorize_bpm, BINS, List.find?, c1, c2, c3, c4]

/-- Witness for C7 (amended) at the BPM values 95 (covered by exactly one
range) and 1000 (beyond every range). -/
theorem categorize_bpm_coverage_witness :
    BINS.countP (binMatches 95) = 1 ∧ categorize_bpm 1000 = none :=
  ⟨((categorize_bpm_coverage 95).1 (by norm_num)).1,
    (categorize_bpm_coverage 1000).2 (by norm_num)⟩

/-! ## Theorems for the song-selection claims -/

/-- Any song in the unused pool is in the catalog and has an unused id. -/
theorem mem_unused_songs {songs : List Song} {used : List String} {s : Song}
    (h : s ∈ unused_songs songs used) : s ∈ songs ∧ s.id ∉ used := by
  have := List.mem_filter.mp h
  simpa using this

/-- Any song returned by choose_song_from_bin is a catalog song whose id is
not in the used-id set it was handed. -/
theorem choose_song_sound (songs : List Song) (state : String)
    (used : List String) (r : ℕ) (s : Song)
    (h : choose_song_from_bin songs state used r = some s) :
    s ∈ songs ∧ s.id ∉ used := by
  unfold choose_song_from_bin at h
  split at h
  · have hmem : s ∈ state_candidates songs state used := by
      rw [← Option.some.inj h]
      exact List.get_mem _ _ _
    exact mem_unused_songs (List.mem_filter.mp hmem).1
  · split at h
    · have hmem : s ∈ unused_songs songs used := by
        rw [← Option.some.inj h]
        exact List.get_mem _ _ _
      exact mem_unused_songs hmem
    · exact absurd h (by simp)

/-- The selection loop only emits catalog songs with ids outside the
incoming used-id set, and never emits the same id twice. -/
theorem select_songs_sound (songs : List Song) (rs : ℕ → ℕ) :
    ∀ (path : List (Fin 4)) (used : List String) (k : ℕ),
      ((select_songs songs path used k rs).map Song.id).Nodup ∧
      ∀ s ∈ select_songs songs path used k rs, s ∈ songs ∧ s.id ∉ used := by
  intro path
  induction path with
  | nil => intro used k; simp [select_songs]
  | cons st rest ih =>
    intro used k
    rcases hc : choose_song_from_bin songs (STATES st) used (rs k) with _ | song
    · have IH := ih used (k + 1)
      constructor
      · simpa [select_songs, hc] using IH.1
      · intro s hs
        rw [select_songs] at hs
        rw [hc] at hs
        exact IH.2 s hs
    · have hsong := choose_song_sound songs (STATES st) used (rs k) song hc
      have IH := ih (song.id :: used) (k + 1)
      have hout : select_songs songs (st :: rest) used k rs =
          song :: select_songs songs rest (song.id :: used) (k + 1) rs := by
        rw [select_songs, hc]
      constructor
      · rw [hout]
        rw [List.map_cons, List.nodup_cons]
        refine ⟨?_, IH.1⟩
        intro hmem
        rcases List.mem_map.mp hmem with ⟨x, hx, hxid⟩
        have := (IH.2 x hx).2
        rw [hxid] at this
        exact this (List.mem_cons_self _ _)
      · intro s hs
        rw [hout] at hs
        rcases List.mem_cons.mp hs with hseq | hrest
        · rw [hseq]; exact hsong
        · have := IH.2 s hrest
          exact ⟨this.1, fun hmem => this.2 (List.mem_cons_of_mem _ hmem)⟩

/-- Claim C8: within one generate_playlist call no song identifier appears
twice in the returned playlist: the output id list is duplicate-free, and
every song returned by choose_song_from_bin has an id outside the used-id
set passed to it (each selected id being added to the shared set before the
next selection, as in the selection loop). -/
theorem generate_playlist_no_duplicate_ids :
    ∀ (songs : List Song) (path : List (Fin 4)) (rs : ℕ → ℕ),
      ((generate_playlist_from_path songs path rs).map Song.id).Nodup ∧
      ∀ (state : String) (used : List String) (r : ℕ) (s : Song),
        choose_song_from_bin songs state used r = some s → s.id ∉ used := by
  intro songs path rs
  exact ⟨(select_songs_sound songs rs path [] 0).1,
    fun state used r s h => (choose_song_sound songs state used r s h).2⟩

/-- Witness for C8 at a concrete one-song catalog: the selected song has an
id outside the empty used set. -/
theorem generate_playlist_no_duplicate_ids_witness :
    (Song.mk "a" 100 (some "warmup")).id ∉ ([] : List String) :=
  (generate_playlist_no_duplicate_ids [Song.mk "a" 100 (some "warmup")] [] (fun _ => 0)).2
    "warmup" [] 0 (Song.mk "a" 100 (some "warmup")) rfl

/-! ## Theorems for the transition-matrix claims -/

/-- For a nonnegative matrix all of whose row sums are nonzero,
row_normalize returns a row-stochastic matrix. -/
theorem row_normalize_isRowStochastic {n : ℕ} (M : Matrix (Fin n) (Fin n) ℝ)
    (hM : ∀ i j, 0 ≤ M i j) (hs : ∀ i, row_sum M i ≠ 0) :
    IsRowStochastic (row_normalize M) := by
  have hpos : ∀ i, 0 < row_sum M i := fun i =>
    lt_of_le_of_ne (Finset.sum_nonneg fun j _ => hM i j) (Ne.symm (hs i))
  constructor
  · intro i
    calc ∑ j, row_normalize M i j = (∑ j, M i j) / row_sum M i := by
          simp [row_normalize, if_neg (hs i), Finset.sum_div]
      _ = 1 := div_self (hs i)
  · intro i j
    have hentry : row_normalize M i j = M i j / row_sum M i := by
      simp [row_normalize, if_neg (hs i)]
    refine ⟨?_, ?_⟩
    · rw [hentry]
      exact div_nonneg (hM i j) (hpos i).le
    · rw [hentry, div_le_one (hpos i)]
      exact Finset.single_le_sum (fun k _ => hM i k) (Finset.mem_univ j)

/-- Every phase-weight vector of markov_model.py has positive entries. -/
theorem phase_weights_pos :
    ∀ pw ∈ PHASE_WEIGHTS, ∀ j, 0 < pw.2 j := by
  intro pw hpw
  fin_cases hpw <;> intro j <;> fin_cases j <;> norm_num

/-- Claim C1: for positive temperature, the base matrix built by
build_base_transition and every phase matrix built by build_phase_matrix
from it with one of the PHASE_WEIGHTS vectors is row-stochastic (rows sum
exactly to 1 in exact arithmetic, hence within the 1e-6 tolerance) with
all entries in [0, 1]. -/
theorem transition_matrices_row_stochastic (c : Fin 4 → ℝ) (tau : ℝ)
    (htau : 0 < tau) :
    (IsRowStochastic (build_base_transition c tau) ∧
      ∀ i, |(∑ j, build_base_transition c tau i j) - 1| ≤ 1 / 1000000) ∧
    ∀ pw ∈ PHASE_WEIGHTS,
      IsRowStochastic (build_phase_matrix (build_base_transition c tau) pw.2) ∧
      ∀ i, |(∑ j, build_phase_matrix (build_base_transition c tau) pw.2 i j) - 1|
        ≤ 1 / 1000000 := by
  have hsim : ∀ i j, 0 < build_similarity_matrix c tau i j := fun i j =>
    Real.exp_pos _
  have hsimsum : ∀ i, row_sum (build_similarity_matrix c tau) i ≠ 0 := fun i =>
    ne_of_gt (Finset.sum_pos (fun j _ => hsim i j) Finset.univ_nonempty)
  have hbase : IsRowStochastic (build_base_transition c tau) :=
    row_normalize_isRowStochastic _ (fun i j => (hsim i j).le) hsimsum
  have hbasepos : ∀ i j, 0 < build_base_transition c tau i j := by
    intro i j
    have : build_base_transition c tau i j =
        build_similarity_matrix c tau i j / row_sum (build_similarity_matrix c tau) i := by
      simp [build_base_transition, row_normalize, if_neg (hsimsum i)]
    rw [this]
    exact div_pos (hsim i j)
      (lt_of_le_of_ne (Finset.sum_nonneg fun k _ => (hsim i k).le)
        (Ne.symm (hsimsum i)))
  refine ⟨⟨hbase, ?_⟩, ?_⟩
  · intro i
    rw [hbase.1 i]
    norm_num
  · intro pw hpw
    have hwpos := phase_weights_pos pw hpw
    have hweighted : ∀ i j, 0 < (Matrix.of fun i j =>
        build_base_transition c tau i j * pw.2 j) i j := fun i j =>
      mul_pos (hbasepos i j) (hwpos j)
    have hwsum : ∀ i, row_sum (Matrix.of fun i j =>
        build_base_transition c tau i j * pw.2 j) i ≠ 0 := fun i =>
      ne_of_gt (Finset.sum_pos (fun j _ => hweighted i j) Finset.univ_nonempty)
    have hphase : IsRowStochastic
        (build_phase_matrix (build_base_transition c tau) pw.2) :=
      row_normalize_isRowStochastic _ (fun i j => (hweighted i j).le) hwsum
    refine ⟨hphase, ?_⟩
    intro i
    rw [hphase.1 i]
    norm_num

/-- Witness for C1 at the evenly spaced centers of the spec and the
default temperature 12. -/
theorem transition_matrices_row_stochastic_witness :
    IsRowStochastic (build_base_transition ![95, 125, 155, 185] 12) :=
  ((transition_matrices_row_stochastic ![95, 125, 155, 185] 12 (by norm_num)).1).1

/-- Counterexample to claim C3 as stated: a row of zeros has sum zero, and
row_normalize leaves it a zero row (it divides by the substituted 1), so
the row is not the uniform distribution (its entries are 0, not 1/4) and
the output is not row-stochastic (the row sums to 0, not 1). -/
theorem row_normalize_zero_row_not_uniform :
    row_normalize (Matrix.of fun _ _ => (0 : ℝ) : Matrix (Fin 4) (Fin 4) ℝ) 0 0 = 0 ∧
    (0 : ℝ) ≠ 1 / 4 ∧
    (∑ j, row_normalize (Matrix.of fun _ _ => (0 : ℝ) : Matrix (Fin 4) (Fin 4) ℝ) 0 j)
      = 0 ∧
    (0 : ℝ) ≠ 1 := by
  have hz : ∀ j, row_normalize
      (Matrix.of fun _ _ => (0 : ℝ) : Matrix (Fin 4) (Fin 4) ℝ) 0 j = 0 := by
    intro j
    simp [row_normalize, row_sum]
  refine ⟨hz 0, by norm_num, ?_, by norm_num⟩
  simp [hz]

/-- Claim C3, amended: row_normalize divides each row by its sum; a row
whose sum is exactly zero is divided by the substituted 1 instead, i.e.
left unchanged (a zero row stays zero rather than becoming uniform), so no
division by zero occurs; and for a nonnegative matrix all of whose row
sums are nonzero the output is row-stochastic. -/
theorem row_normalize_spec {n : ℕ} (M : Matrix (Fin n) (Fin n) ℝ) :
    (∀ i, row_sum M i ≠ 0 → ∀ j, row_normalize M i j = M i j / row_sum M i) ∧
    (∀ i, row_sum M i = 0 → ∀ j, row_normalize M i j = M i j) ∧
    ((∀ i j, 0 ≤ M i j) → (∀ i, row_sum M i ≠ 0) →
      IsRowStochastic (row_normalize M)) := by
  refine ⟨?_, ?_, row_normalize_isRowStochastic M⟩
  · intro i hi j
    simp [row_normalize, if_neg hi]
  · intro i hi j
    simp [row_normalize, if_pos hi]

/-- Witness for C3 (amended) on the all-ones matrix: all row sums are 4,
so the first row of the output sums to 1. -/
theorem row_normalize_spec_witness :
    (∑ j, row_normalize (Matrix.of fun _ _ => (1 : ℝ) : Matrix (Fin 4) (Fin 4) ℝ) 0 j)
      = 1 :=
  ((row_normalize_spec (Matrix.of fun _ _ => (1 : ℝ))).2.2
    (by intro i j; norm_num)
    (by intro i; simp [row_sum])).1 0

/-- Claim C10: build_phase_matrix is invariant under positive scaling of
the weight vector, in exact arithmetic, whenever every row of the base
matrix has a positive weighted sum: the common factor cancels in the row
normalization. -/
theorem build_phase_matrix_scaling (P : Matrix (Fin 4) (Fin 4) ℝ)
    (w : Fin 4 → ℝ) (c : ℝ) (hc : 0 < c)
    (hw : ∀ i, 0 < ∑ j, P i j * w j) :
    build_phase_matrix P (fun j => c * w j) = build_phase_matrix P w := by
  ext i j
  have hsum : row_sum (Matrix.of fun i j => P i j * (c * w j)) i =
      c * ∑ j, P i j * w j := by
    rw [row_sum, Finset.mul_sum]
    refine Finset.sum_congr rfl fun k _ => ?_
    simp only [Matrix.of_apply]
    ring
  have hsum2 : row_sum (Matrix.of fun i j => P i j * w j) i =
      ∑ j, P i j * w j := rfl
  have hne : (∑ j, P i j * w j) ≠ 0 := ne_of_gt (hw i)
  have hcne : c ≠ 0 := ne_of_gt hc
  simp only [build_phase_matrix, row_normalize, Matrix.of_apply]
  rw [hsum, hsum2, if_neg (mul_ne_zero hcne hne), if_neg hne]
  rw [show P i j * (c * w j) = c * (P i j * w j) by ring]
  exact mul_div_mul_left _ _ hcne

/-- Witness for C10 on the all-ones base matrix, unit weights and the
scale factor 2. -/
theorem build_phase_matrix_scaling_witness :
    build_phase_matrix (Matrix.of fun _ _ => (1 : ℝ))
      (fun j => 2 * (fun _ => (1 : ℝ)) j) =
    build_phase_matrix (Matrix.of fun _ _ => (1 : ℝ)) (fun _ => (1 : ℝ)) :=
  build_phase_matrix_scaling (Matrix.of fun _ _ => (1 : ℝ)) (fun _ => (1 : ℝ)) 2
    (by norm_num) (by intro i; simp)

/-! ## Theorems for the NaN-sentinel claim -/

/-- NaN on the left poisons a NaN-propagating sum. -/
theorem nadd_none_left (b : Option ℝ) : nadd none b = none := rfl

/-- NaN on the right poisons a NaN-propagating sum. -/
theorem nadd_none_right (a : Option ℝ) : nadd a none = none := by
  cases a <;> rfl

/-- NaN on the right poisons a NaN-propagating division. -/
theorem ndiv_none_right (a : Option ℝ) : ndiv a none = none := by
  cases a <;> rfl

/-- NaN on the left poisons a NaN-propagating division. -/
theorem ndiv_none_left (b : Option ℝ) : ndiv none b = none := rfl

/-- A NaN operand poisons a similarity entry. -/
theorem sim_entry_nan_none_right (tau : ℝ) (a : Option ℝ) :
    sim_entry_nan tau a none = none := by
  cases a <;> rfl

/-- A NaN entry anywhere in a 4-vector makes its sum NaN. -/
theorem vec_sum_nan_none (v : Fin 4 → Option ℝ) (t0 : Fin 4)
    (h : v t0 = none) : vec_sum_nan v = none := by
  fin_cases t0 <;> simp_all [vec_sum_nan, nadd_none_left, nadd_none_right]

/-- One NaN center poisons every single entry of the base transition
matrix: the NaN similarity column makes every row sum NaN, the `== 0`
guard does not fire on NaN, and the division propagates it. -/
theorem build_base_transition_nan_eq_none (c : Fin 4 → Option ℝ) (tau : ℝ)
    (t0 : Fin 4) (h : c t0 = none) :
    ∀ i j, build_base_transition_nan c tau i j = none := by
  intro i j
  have hMt : build_similarity_nan c tau i t0 = none := by
    simp only [build_similarity_nan]
    rw [h]
    exact sim_entry_nan_none_right tau _
  have hrow : row_sum_nan (build_similarity_nan c tau) i = none := by
    rw [row_sum_nan]
    exact vec_sum_nan_none _ t0 hMt
  simp only [build_base_transition_nan, row_normalize_nan]
  rw [hrow]
  exact ndiv_none_right _

/-- An all-NaN base matrix yields an all-NaN phase matrix. -/
theorem build_phase_matrix_nan_eq_none (P : Fin 4 → Fin 4 → Option ℝ)
    (w : Fin 4 → ℝ) (h : ∀ i j, P i j = none) :
    ∀ i j, build_phase_matrix_nan P w i j = none := by
  intro i j
  simp only [build_phase_matrix_nan, row_normalize_nan]
  rw [h i j]
  exact ndiv_none_left _

/-- Claim C2 is violated by the code (code bug): for a catalog with no
classified warmup song, compute_bin_centers yields the NaN sentinel for
state 0, and build_base_transition propagates it — the NaN similarity
entries make every row sum NaN, the `== 0` guard does not fire on NaN, and
the division turns every single entry of the transition matrix into NaN.
No guard maps sentinel distances to zero similarity anywhere in
markov_model.py. -/
theorem nan_center_poisons_transition_matrix :
    compute_bin_centers no_warmup_catalog 0 = none ∧
    ∀ i j, build_base_transition_nan (compute_bin_centers no_warmup_catalog) 12 i j
      = none := by
  have h0 : compute_bin_centers no_warmup_catalog 0 = none := by rfl
  exact ⟨h0, build_base_transition_nan_eq_none _ 12 0 h0⟩

/-! ## Theorem for the exhaustion claim -/

/-- Claim C9 is violated by the code (code bug, the same missing sentinel
guard as C2): an undersized catalog that leaves a state empty does not
complete without error.  For the concrete three-song catalog (no sprint
song) against a five-slot plan, the NaN sprint center poisons every entry
of every transition matrix, and the np.random.choice validation in
simulate_chain fails on the NaN probability row, raising ValueError
(modelled as `none`) before any song is selected — generate_playlist does
not return a shorter playlist, it raises.  The skip-a-slot exhaustion
handling of the selection loop itself never runs. -/
theorem undersized_catalog_raises :
    generate_playlist three_song_catalog
      [("warmup", 2), ("steady_state", 2), ("sprint", 1)] 12
      (fun _ => 0) (fun _ => 0) = none ∧
    three_song_catalog.length
      < total_slots [("warmup", 2), ("steady_state", 2), ("sprint", 1)] := by
  constructor
  · have hc3 : compute_bin_centers three_song_catalog 3 = none := by rfl
    have hbase := build_base_transition_nan_eq_none
      (compute_bin_centers three_song_catalog) 12 3 hc3
    have hphase := build_phase_matrix_nan_eq_none
      (build_base_transition_nan (compute_bin_centers three_song_catalog) 12)
      ![2, 1.2, 0.8, 0.5] hbase
    have hchoice : ∀ r, np_random_choice_nan
        (build_phase_matrix_nan
          (build_base_transition_nan (compute_bin_centers three_song_catalog) 12)
          ![2, 1.2, 0.8, 0.5] 0) r = none := by
      intro r
      rw [np_random_choice_nan, if_neg]
      rw [vec_sum_nan_none _ 0 (hphase 0 0)]
      simp
    have hl1 : lookup_phase_weights "warmup" = some ![2, 1.2, 0.8, 0.5] := rfl
    have hl2 : lookup_phase_weights "steady_state" = some ![1, 2, 1, 0.8] := rfl
    have hl3 : lookup_phase_weights "sprint" = some ![0.5, 0.8, 1, 2.5] := rfl
    simp only [generate_playlist, build_P_seq_nan, hl1, hl2, hl3,
      List.replicate_succ, List.replicate_zero, List.cons_append,
      List.nil_append, simulate_chain_nan, hchoice]
  · decide

/-! ## Theorems for the invalid-configuration claim -/

/-- A plan containing a phase name missing from the weight table makes the
matrix-sequence construction fail (the modelled KeyError). -/
theorem build_P_seq_eq_none (P : Matrix (Fin 4) (Fin 4) ℝ) :
    ∀ plan : List (String × ℕ),
      (∃ p ∈ plan, lookup_phase_weights p.1 = none) →
      build_P_seq P plan = none := by
  intro plan
  induction plan with
  | nil => rintro ⟨p, hp, -⟩; cases hp
  | cons q rest ih =>
    rintro ⟨p, hp, hnone⟩
    obtain ⟨ph, len⟩ := q
    rcases List.mem_cons.mp hp with rfl | hmem
    · simp only [build_P_seq]
      rw [hnone]
    · rcases hl : lookup_phase_weights ph with - | w <;>
        simp [build_P_seq, hl, ih ⟨p, hmem, hnone⟩]

/-- A plan all of whose phase names are in the weight table makes the
matrix-sequence construction succeed, for every temperature. -/
theorem build_P_seq_isSome (P : Matrix (Fin 4) (Fin 4) ℝ) :
    ∀ plan : List (String × ℕ),
      (∀ p ∈ plan, (lookup_phase_weights p.1).isSome = true) →
      (build_P_seq P plan).isSome = true := by
  intro plan
  induction plan with
  | nil => intro; simp [build_P_seq]
  | cons q rest ih =>
    intro h
    obtain ⟨ph, len⟩ := q
    have h1 := h (ph, len) (List.mem_cons_self _ _)
    rcases hl : lookup_phase_weights ph with - | w
    · rw [hl] at h1; simp at h1
    · have h2 := ih (fun p hp => h p (List.mem_cons_of_mem _ hp))
      rcases hrest : build_P_seq P rest with - | ms
      · rw [hrest] at h2; simp at h2
      · simp [build_P_seq, hl, hrest]

/-- Counterexample to claim C5 as stated: a non-positive tau (here -1)
passed to matrix construction produces a matrix sequence without any
error, and so does an empty workout plan (which silently yields the empty
sequence); neither is rejected. -/
theorem invalid_config_silently_accepted :
    (generate_matrices ![95, 125, 155, 185] [("warmup", 1)] (-1)).isSome = true ∧
    generate_matrices ![95, 125, 155, 185] ([] : List (String × ℕ)) (-1)
      = some [] := by
  constructor
  · have hl : lookup_phase_weights "warmup" = some ![2, 1.2, 0.8, 0.5] := rfl
    simp [generate_matrices, build_P_seq, hl]
  · rfl

/-- Claim C5, amended: of the three invalid configurations only a phase
name absent from the phase-weight table causes an error at
matrix-construction time (the KeyError of the dict lookup, which is never
silently replaced by a default weight vector); a non-positive tau and an
empty workout plan are accepted silently, the empty plan yielding the
empty matrix sequence and hence an empty playlist. -/
theorem generate_matrices_spec :
    (∀ (c : Fin 4 → ℝ) (tau : ℝ) (plan : List (String × ℕ)),
        (∃ p ∈ plan, lookup_phase_weights p.1 = none) →
        generate_matrices c plan tau = none) ∧
    (∀ (c : Fin 4 → ℝ) (tau : ℝ) (plan : List (String × ℕ)),
        (∀ p ∈ plan, (lookup_phase_weights p.1).isSome = true) →
        (generate_matrices c plan tau).isSome = true) ∧
    (∀ (c : Fin 4 → ℝ) (tau : ℝ),
        generate_matrices c ([] : List (String × ℕ)) tau = some []) := by
  refine ⟨?_, ?_, ?_⟩
  · intro c tau plan h
    exact build_P_seq_eq_none _ plan h
  · intro c tau plan h
    exact build_P_seq_isSome _ plan h
  · intro c tau
    rfl

/-- Witness for C5 (amended): a plan naming the phase "cooldown", which is
not in the weight table, makes matrix construction fail. -/
theorem generate_matrices_spec_witness :
    generate_matrices ![95, 125, 155, 185] [("cooldown", 1)] 12 = none :=
  generate_matrices_spec.1 ![95, 125, 155, 185] 12 [("cooldown", 1)]
    ⟨("cooldown", 1), List.mem_cons_self _ _, rfl⟩

/-! ## Theorems for the hitting-time claim -/

/-- A solution of the normal equations is a least-squares solution. -/
theorem isLeastSquaresSol_of_normal {m k : Type*} [Fintype m] [Fintype k]
    (A : Matrix m k ℝ) (b : m → ℝ) (x : k → ℝ)
    (h : (Aᵀ * A).mulVec x = Aᵀ.mulVec b) : IsLeastSquaresSol A b x := by
  intro y
  have hy : A.mulVec y = A.mulVec x + A.mulVec (y - x) := by
    rw [← Matrix.mulVec_add]
    funext j
    simp
  have horth : Aᵀ.mulVec (A.mulVec x - b) = 0 := by
    rw [Matrix.mulVec_sub, Matrix.mulVec_mulVec, h, sub_self]
  have hcross : ∑ i, (A.mulVec x i - b i) * A.mulVec (y - x) i = 0 := by
    have : ∑ i, (A.mulVec x i - b i) * A.mulVec (y - x) i
        = (A.mulVec x - b) ⬝ᵥ A.mulVec (y - x) := rfl
    rw [this, Matrix.dotProduct_mulVec, ← Matrix.mulVec_transpose, horth,
      Matrix.zero_dotProduct]
  have hexp : residual_sq A b y = residual_sq A b x
      + 2 * ∑ i, (A.mulVec x i - b i) * A.mulVec (y - x) i
      + ∑ i, (A.mulVec (y - x) i) ^ 2 := by
    rw [residual_sq, residual_sq, Finset.mul_sum, ← Finset.sum_add_distrib,
      ← Finset.sum_add_distrib]
    refine Finset.sum_congr rfl fun i _ => ?_
    have := congrFun hy i
    rw [this]
    show (A.mulVec x i + A.mulVec (y - x) i - b i) ^ 2 = _
    ring
  rw [hexp]
  have h1 : 0 ≤ ∑ i, (A.mulVec (y - x) i) ^ 2 :=
    Finset.sum_nonneg fun i _ => sq_nonneg _
  rw [hcross]
  linarith

/-- The normal equations always have a solution: the ranges of the maps of
Aᵀ·A and of Aᵀ agree (they have equal rank and one contains the other). -/
theorem exists_isLeastSquaresSol {m k : Type*} [Fintype m] [Fintype k]
    (A : Matrix m k ℝ) (b : m → ℝ) : ∃ x, IsLeastSquaresSol A b x := by
  have hle : LinearMap.range (Aᵀ * A).mulVecLin ≤ LinearMap.range Aᵀ.mulVecLin := by
    rintro - ⟨x, rfl⟩
    exact ⟨A.mulVec x, by
      rw [Matrix.mulVecLin_apply, Matrix.mulVecLin_apply, Matrix.mulVec_mulVec]⟩
  have hrank : Module.finrank ℝ (LinearMap.range (Aᵀ * A).mulVecLin)
      = Module.finrank ℝ (LinearMap.range Aᵀ.mulVecLin) := by
    have h1 : (Aᵀ * A).rank = A.rank := Matrix.rank_transpose_mul_self A
    have h2 : Aᵀ.rank = A.rank := Matrix.rank_transpose A
    have := h1.trans h2.symm
    simpa [Matrix.rank] using this
  have hr : LinearMap.range (Aᵀ * A).mulVecLin = LinearMap.range Aᵀ.mulVecLin :=
    Submodule.eq_of_le_of_finrank_eq hle hrank
  have hmem : Aᵀ.mulVec b ∈ LinearMap.range Aᵀ.mulVecLin :=
    ⟨b, by rw [Matrix.mulVecLin_apply]⟩
  rw [← hr] at hmem
  obtain ⟨x, hx⟩ := hmem
  rw [Matrix.mulVecLin_apply] at hx
  exact ⟨x, isLeastSquaresSol_of_normal A b x hx⟩

/-- The modelled np.linalg.lstsq indeed returns a least-squares solution. -/
theorem lstsq_isLeastSquaresSol {m k : Type*} [Fintype m] [Fintype k]
    (A : Matrix m k ℝ) (b : m → ℝ) : IsLeastSquaresSol A b (lstsq A b) := by
  rw [lstsq]
  rw [dif_pos (exists_isLeastSquaresSol A b)]
  exact (exists_isLeastSquaresSol A b).choose_spec

/-- On non-target indices the reassembled vector is the restricted
solution. -/
theorem compute_expected_hitting_times_restrict {n : ℕ}
    (P : Matrix (Fin n) (Fin n) ℝ) (t : Fin n) :
    (fun s : non_target n t => compute_expected_hitting_times P t s.1)
      = hitting_h_sub P t := by
  funext s
  simp only [compute_expected_hitting_times, dif_neg s.2]

/-- Claim C4: for every row-stochastic matrix P and target t, the vector
returned by compute_expected_hitting_times is zero at the target; when the
restricted system (I - P_sub) h_sub = 1 is uniquely solvable (its matrix
is invertible, the case in which np.linalg.solve succeeds) the vector
satisfies h(i) = 1 + Σ_j P[i][j]·h(j) at every non-target i; and when the
system is singular the restricted part of the vector is a least-squares
solution instead, no error escaping — the function is total, always
returning an N-length vector of reals. -/
theorem compute_expected_hitting_times_spec {n : ℕ}
    (P : Matrix (Fin n) (Fin n) ℝ) (t : Fin n)
    (hP : ∀ i, ∑ j, P i j = 1) :
    compute_expected_hitting_times P t t = 0 ∧
    (IsUnit (hitting_A P t).det → ∀ i, i ≠ t →
      compute_expected_hitting_times P t i
        = 1 + ∑ j, P i j * compute_expected_hitting_times P t j) ∧
    (¬ IsUnit (hitting_A P t).det →
      IsLeastSquaresSol (hitting_A P t) (fun _ => 1)
        (fun s : non_target n t => compute_expected_hitting_times P t s.1)) := by
  refine ⟨by simp [compute_expected_hitting_times], ?_, ?_⟩
  · intro hdet i hi
    have hsubdef : hitting_h_sub P t = (hitting_A P t)⁻¹.mulVec fun _ => 1 := by
      rw [hitting_h_sub, if_pos hdet]
    have hsolve : (hitting_A P t).mulVec (hitting_h_sub P t) = fun _ => 1 := by
      rw [hsubdef, Matrix.mulVec_mulVec, Matrix.mul_nonsing_inv _ hdet,
        Matrix.one_mulVec]
    have hexp : ∀ a : non_target n t,
        (hitting_A P t).mulVec (hitting_h_sub P t) a
          = hitting_h_sub P t a
            - ∑ b : non_target n t, P a.1 b.1 * hitting_h_sub P t b := by
      intro a
      simp only [Matrix.mulVec, Matrix.dotProduct, hitting_A, Matrix.sub_apply,
        Matrix.one_apply, Matrix.submatrix_apply, sub_mul,
        Finset.sum_sub_distrib, ite_mul, one_mul, zero_mul]
      rw [Finset.sum_ite_eq]
      simp
    have hcomp := congrFun hsolve ⟨i, hi⟩
    rw [hexp ⟨i, hi⟩] at hcomp
    have hfull : ∑ j, P i j * compute_expected_hitting_times P t j
        = ∑ b : non_target n t, P i b.1 * hitting_h_sub P t b := by
      have hzero : ∀ j ∈ Finset.univ, P i j * compute_expected_hitting_times P t j ≠ 0
          → j ≠ t := by
        intro j _ hne
        intro hjt
        apply hne
        rw [hjt]
        simp [compute_expected_hitting_times]
      rw [← Finset.sum_filter_of_ne hzero]
      rw [Finset.sum_subtype (Finset.univ.filter (fun j => j ≠ t))
        ((fun x => by simp) :
          ∀ x, x ∈ Finset.univ.filter (fun j => j ≠ t) ↔ x ≠ t)
        (fun j => P i j * compute_expected_hitting_times P t j)]
      refine Finset.sum_congr rfl fun b _ => ?_
      rw [congrFun (compute_expected_hitting_times_restrict P t).symm b]
    have hival : compute_expected_hitting_times P t i = hitting_h_sub P t ⟨i, hi⟩ := by
      simp [compute_expected_hitting_times, dif_neg hi]
    rw [hival, hfull]
    linarith [hcomp]
  · intro hdet
    have hsubdef : hitting_h_sub P t = lstsq (hitting_A P t) fun _ => 1 := by
      rw [hitting_h_sub, if_neg hdet]
    rw [compute_expected_hitting_times_restrict P t, hsubdef]
    exact lstsq_isLeastSquaresSol _ _

/-- Witness for C4 on two concrete row-stochastic 2-state chains with
target 1: the uniform chain has an invertible restricted system and the
returned vector satisfies the hitting-time equation at state 0; the
identity chain (state 0 absorbing) has the singular system and the
returned restricted vector is a least-squares solution. -/
theorem compute_expected_hitting_times_spec_witness :
    compute_expected_hitting_times (Matrix.of !![(1:ℝ)/2, 1/2; 1/2, 1/2]) 1 1 = 0 ∧
    compute_expected_hitting_times (Matrix.of !![(1:ℝ)/2, 1/2; 1/2, 1/2]) 1 0
      = 1 + ∑ j, (Matrix.of !![(1:ℝ)/2, 1/2; 1/2, 1/2]) 0 j
          * compute_expected_hitting_times (Matrix.of !![(1:ℝ)/2, 1/2; 1/2, 1/2]) 1 j ∧
    IsLeastSquaresSol (hitting_A (1 : Matrix (Fin 2) (Fin 2) ℝ) 1) (fun _ => 1)
      (fun s : non_target 2 1 =>
        compute_expected_hitting_times (1 : Matrix (Fin 2) (Fin 2) ℝ) 1 s.1) := by
  letI huniq : Unique (non_target 2 1) :=
    ⟨⟨⟨0, by decide⟩⟩, fun x => by revert x; decide⟩
  have hP2 : ∀ i, ∑ j, (Matrix.of !![(1:ℝ)/2, 1/2; 1/2, 1/2]) i j = 1 := by
    intro i
    fin_cases i <;> rw [Fin.sum_univ_two] <;> norm_num
  have hd0 : ((default : non_target 2 1) : Fin 2) = 0 := rfl
  have hdval : hitting_A (Matrix.of !![(1:ℝ)/2, 1/2; 1/2, 1/2]) 1 default default
      = 1/2 := by
    show (1 : Matrix (non_target 2 1) (non_target 2 1) ℝ) default default
        - (Matrix.of !![(1:ℝ)/2, 1/2; 1/2, 1/2])
            ((default : non_target 2 1) : Fin 2)
            ((default : non_target 2 1) : Fin 2) = 1/2
    rw [Matrix.one_apply_eq, hd0]
    norm_num
  have hdet : IsUnit (hitting_A (Matrix.of !![(1:ℝ)/2, 1/2; 1/2, 1/2]) 1).det := by
    rw [Matrix.det_unique, hdval]
    exact isUnit_iff_ne_zero.mpr (by norm_num)
  have hP1 : ∀ i, ∑ j, (1 : Matrix (Fin 2) (Fin 2) ℝ) i j = 1 := by
    intro i
    fin_cases i <;> rw [Fin.sum_univ_two] <;> simp [Matrix.one_apply]
  have hdet0 : ¬ IsUnit (hitting_A (1 : Matrix (Fin 2) (Fin 2) ℝ) 1).det := by
    have h0 : hitting_A (1 : Matrix (Fin 2) (Fin 2) ℝ) 1 default default = 0 := by
      show (1 : Matrix (non_target 2 1) (non_target 2 1) ℝ) default default
          - (1 : Matrix (Fin 2) (Fin 2) ℝ) _ _ = 0
      rw [Matrix.one_apply_eq, Matrix.one_apply_eq, sub_self]
    rw [Matrix.det_unique, h0]
    simp
  have H1 := compute_expected_hitting_times_spec
    (Matrix.of !![(1:ℝ)/2, 1/2; 1/2, 1/2]) 1 hP2
  have H2 := compute_expected_hitting_times_spec
    (1 : Matrix (Fin 2) (Fin 2) ℝ) 1 hP1
  exact ⟨H1.1, H1.2.1 hdet 0 (by decide), H2.2.2 hdet0⟩

end BPMPlaylist
